import Mathlib

/-!
Verification of the ton-x Tonhub connector (`src/connector/TonhubConnector.ts`,
`src/connector/crypto.ts`, `src/contracts/extractPublicKeyAndAddress.ts`) against its
natural-language specification.

Modelling conventions:
* JavaScript `Buffer`s / byte strings are `List Nat` (`Bytes`); base64 and UTF-8 transport
  encodings, being bijections between strings and the byte values the code immediately
  decodes them to, are absorbed (every field is modelled by its decoded byte value).
* TON cells are a mutual inductive (`Cell` / `CellList`): a bit string plus ordered child
  cells, exactly the data the ton-core builders of this repository construct.
* The external ed25519 primitives (`safeSign` / `safeSignVerify` of ton-core, declared an
  assumed library service by the spec) are modelled symbolically by an ideal deterministic
  signature: a signature is valid exactly when it equals the canonical signature of the
  signed cell under the key, realised by an injective encoding of cells.
* Fallible TypeScript code (functions that can `throw`) returns `Except String _`.
* The long-poll loops are modelled with an explicit clock / fuel; the relay is a pure
  oracle supplying the records each network call would return.
-/

namespace TonX

instance {ε α : Type} [DecidableEq ε] [DecidableEq α] : DecidableEq (Except ε α)
  | .ok a, .ok b =>
    if h : a = b then isTrue (by rw [h]) else isFalse (fun hc => by injection hc; contradiction)
  | .error a, .error b =>
    if h : a = b then isTrue (by rw [h]) else isFalse (fun hc => by injection hc; contradiction)
  | .ok _, .error _ => isFalse (fun hc => by injection hc)
  | .error _, .ok _ => isFalse (fun hc => by injection hc)

/-- Byte strings (Node `Buffer`s): lists of naturals, valid bytes being < 256. -/
abbrev Bytes := List Nat

/-- UTF-8 bytes of an ASCII string literal (used for wallet-type tags). -/
def utf8 (s : String) : Bytes := s.data.map Char.toNat

/-- Big-endian bits of `n` in a field of width `w` (ton-core `storeUint` layout). -/
def natToBits : Nat → Nat → List Bool
  | _, 0 => []
  | n, w+1 => natToBits (n / 2) w ++ [decide (n % 2 = 1)]

/-- Value of a big-endian bit string. -/
def bitsToNat (bs : List Bool) : Nat := bs.foldl (fun a b => 2 * a + cond b 1 0) 0

/-- Byte string laid out as bits, 8 bits per byte, big-endian in each byte
(ton-core `storeBuffer`). -/
def bytesToBits (bs : Bytes) : List Bool := (bs.map (fun b => natToBits b 8)).flatten

/-- Regroup a bit string into bytes of 8 bits (ton-core `loadBuffer`). -/
def bitsToBytes : List Bool → Bytes
  | b1 :: b2 :: b3 :: b4 :: b5 :: b6 :: b7 :: b8 :: rest =>
    bitsToNat [b1, b2, b3, b4, b5, b6, b7, b8] :: bitsToBytes rest
  | [] => []
  | bs => [bitsToNat bs]

theorem natToBits_length (n w : Nat) : (natToBits n w).length = w := by
  induction w generalizing n with
  | zero => rfl
  | succ w ih => simp [natToBits, ih]

theorem natToBits_inj (w : Nat) : ∀ n m, n < 2^w → m < 2^w →
    natToBits n w = natToBits m w → n = m := by
  induction w with
  | zero => intro n m hn hm _; omega
  | succ w ih =>
    intro n m hn hm h
    simp only [natToBits] at h
    have hsplit := List.append_inj h (by rw [natToBits_length, natToBits_length])
    have hpow : 2^(w+1) = 2 * 2^w := by rw [pow_succ]; ring
    have h1 : n / 2 = m / 2 := ih _ _ (by omega) (by omega) hsplit.1
    have h2 : n % 2 = m % 2 := by
      have := hsplit.2
      simp only [List.cons.injEq, decide_eq_decide] at this
      omega
    omega

theorem bytesToBits_length (bs : Bytes) : (bytesToBits bs).length = 8 * bs.length := by
  induction bs with
  | nil => rfl
  | cons x xs ih =>
    simp [bytesToBits, natToBits_length] at *
    omega

theorem bytesToBits_inj : ∀ (a b : Bytes), (∀ x ∈ a, x < 256) → (∀ x ∈ b, x < 256) →
    bytesToBits a = bytesToBits b → a = b := by
  intro a
  induction a with
  | nil =>
    intro b _ _ h
    cases b with
    | nil => rfl
    | cons y ys =>
      have := congrArg List.length h
      rw [bytesToBits_length, bytesToBits_length] at this
      simp at this
  | cons x xs ih =>
    intro b ha hb h
    cases b with
    | nil =>
      have := congrArg List.length h
      rw [bytesToBits_length, bytesToBits_length] at this
      simp at this
    | cons y ys =>
      simp only [bytesToBits, List.map_cons, List.flatten_cons] at h
      have hsplit := List.append_inj h (by rw [natToBits_length, natToBits_length])
      have hx : x = y := natToBits_inj 8 x y
        (by have := ha x (by simp); norm_num; omega)
        (by have := hb y (by simp); norm_num; omega) hsplit.1
      have : xs = ys := ih ys (fun z hz => ha z (by simp [hz])) (fun z hz => hb z (by simp [hz]))
        (by simpa [bytesToBits] using hsplit.2)
      simp [hx, this]

/-! ## Cells

TON cells: a bit string (at most 1023 bits in the real format) plus up to four ordered
child cells. Only the tree structure matters to the connector, which treats BOC
(de)serialisation as an external library service. -/

mutual
/-- A TON cell: bit content plus ordered references to child cells. -/
inductive Cell : Type where
  | mk (bits : List Bool) (refs : CellList)
/-- The ordered children of a cell (a list, kept mutual so that structural recursion
over cells is available). -/
inductive CellList : Type where
  | nil
  | cons (head : Cell) (tail : CellList)
end

mutual
def Cell.decEq : (a b : Cell) → Decidable (a = b)
  | .mk b1 r1, .mk b2 r2 =>
    if h1 : b1 = b2 then
      match CellList.decEq r1 r2 with
      | isTrue h2 => isTrue (by rw [h1, h2])
      | isFalse h2 => isFalse (fun h => by injection h; contradiction)
    else isFalse (fun h => by injection h; contradiction)
def CellList.decEq : (a b : CellList) → Decidable (a = b)
  | .nil, .nil => isTrue rfl
  | .nil, .cons _ _ => isFalse (fun h => by injection h)
  | .cons _ _, .nil => isFalse (fun h => by injection h)
  | .cons h1 t1, .cons h2 t2 =>
    match Cell.decEq h1 h2, CellList.decEq t1 t2 with
    | isTrue e1, isTrue e2 => isTrue (by rw [e1, e2])
    | isFalse e1, _ => isFalse (fun h => by injection h; contradiction)
    | _, isFalse e2 => isFalse (fun h => by injection h; contradiction)
end

instance : DecidableEq Cell := Cell.decEq
instance : DecidableEq CellList := CellList.decEq

/-- The empty cell (`Cell.EMPTY` / `new Cell()` in ton-core). -/
def Cell.EMPTY : Cell := .mk [] .nil

def Cell.bits : Cell → List Bool
  | .mk b _ => b

def CellList.append : CellList → CellList → CellList
  | .nil, l => l
  | .cons h t, l => .cons h (t.append l)

/-- Bits of a cell encoded as naturals (helper for the injective cell encoding). -/
def bitsEnc (bs : List Bool) : List Nat := bs.map (fun b => cond b 1 0)

theorem bitsEnc_length (bs : List Bool) : (bitsEnc bs).length = bs.length := by
  simp [bitsEnc]

theorem bitsEnc_inj : ∀ (a b : List Bool), bitsEnc a = bitsEnc b → a = b := by
  intro a
  induction a with
  | nil => intro b h; cases b with
    | nil => rfl
    | cons y ys => simp [bitsEnc] at h
  | cons x xs ih =>
    intro b h
    cases b with
    | nil => simp [bitsEnc] at h
    | cons y ys =>
      simp only [bitsEnc, List.map_cons, List.cons.injEq] at h
      have hx : x = y := by cases x <;> cases y <;> simp_all
      have := ih ys (by simpa [bitsEnc] using h.2)
      simp [hx, this]

mutual
/-- Injective encoding of a cell as a byte-like list: the model of the external,
collision-free cell hash / BOC representation hash the library signs over. -/
def Cell.enc : Cell → List Nat
  | .mk bits refs => bits.length :: (bitsEnc bits ++ CellList.enc refs)
def CellList.enc : CellList → List Nat
  | .nil => []
  | .cons h t => (Cell.enc h).length :: (Cell.enc h ++ CellList.enc t)
end

mutual
theorem Cell.enc_inj : ∀ (a b : Cell), Cell.enc a = Cell.enc b → a = b
  | .mk bits1 refs1, .mk bits2 refs2 => by
    intro h
    simp only [Cell.enc, List.cons.injEq] at h
    obtain ⟨hlen, happ⟩ := h
    have hsplit := List.append_inj happ (by rw [bitsEnc_length, bitsEnc_length, hlen])
    have hb := bitsEnc_inj _ _ hsplit.1
    have hr := CellList.enc_list_inj _ _ hsplit.2
    rw [hb, hr]
theorem CellList.enc_list_inj : ∀ (a b : CellList), CellList.enc a = CellList.enc b → a = b
  | .nil, .nil => by intro _; rfl
  | .nil, .cons h2 t2 => by intro h; simp [CellList.enc] at h
  | .cons h1 t1, .nil => by intro h; simp [CellList.enc] at h
  | .cons h1 t1, .cons h2 t2 => by
    intro h
    simp only [CellList.enc, List.cons.injEq] at h
    obtain ⟨hlen, happ⟩ := h
    have hsplit := List.append_inj happ hlen
    have hh := Cell.enc_inj _ _ hsplit.1
    have ht := CellList.enc_list_inj _ _ hsplit.2
    rw [hh, ht]
end

/-! ## Addresses

Model of ton-core `Address` and `Address.parseFriendly` (an assumed library service whose
exact decode behaviour — in particular that it throws on malformed input — the connector
relies on). A friendly address is 36 bytes: tag, workchain, 32-byte hash, 2-byte crc16. -/

/-- A parsed TON address: workchain and 32-byte account hash. -/
structure Address where
  workChain : Int
  hash : Bytes
deriving DecidableEq

/-- ton-core `Address.equals`. -/
def Address.equals (a b : Address) : Bool :=
  a.workChain == b.workChain && a.hash == b.hash

theorem Address.equals_iff (a b : Address) : a.equals b = true ↔ a = b := by
  cases a; cases b
  simp [Address.equals, Address.mk.injEq]

/-- One byte of the crc16-ccitt computation (polynomial 0x1021, as in ton-core). -/
def crc16Step (reg byte : Nat) : Nat :=
  (List.range 8).foldl (fun r i =>
    let r2 := r * 2 + (if byte.testBit (7 - i) then 1 else 0)
    if r2 > 0xffff then (r2 % 0x10000) ^^^ 0x1021 else r2) reg

/-- crc16-ccitt over the data followed by two zero bytes, exactly as ton-core computes the
friendly-address checksum. -/
def crc16 (data : Bytes) : Bytes :=
  let reg := (data ++ [0, 0]).foldl crc16Step 0
  [reg / 256, reg % 256]

/-- Result of ton-core `Address.parseFriendly`. -/
structure FriendlyAddress where
  isBounceable : Bool
  isTestOnly : Bool
  address : Address
deriving DecidableEq

/-- ton-core `Address.parseFriendly` on the decoded 36 bytes: length check, crc16 check,
tag check; throws (`Except.error`) on malformed input. -/
def parseFriendlyAddress (data : Bytes) : Except String FriendlyAddress :=
  if data.length ≠ 36 then
    .error "Unknown address type: byte length is not equal to 36"
  else
    let addr := data.take 34
    let crcGiven := data.drop 34
    if crc16 addr ≠ crcGiven then
      .error "Invalid checksum"
    else
      let tag0 := addr.headD 0
      let isTestOnly := decide (tag0 ≥ 0x80)
      let tag := if tag0 ≥ 0x80 then tag0 - 0x80 else tag0
      if tag ≠ 0x11 ∧ tag ≠ 0x51 then
        .error "Unknown address tag"
      else
        let wcByte := (addr.drop 1).headD 0
        .ok { isBounceable := decide (tag = 0x11)
              isTestOnly := isTestOnly
              address := { workChain := if wcByte = 0xff then -1 else (wcByte : Int)
                           hash := addr.drop 2 } }

/-! ## Builders

ton-core `Builder` (`beginCell() ... .endCell()`): bits are appended, references are
appended in order. Capacity bookkeeping matters only to the chained string encoding
(`storeStringTail`), which splits at the 1023-bit capacity. -/

structure Builder where
  bits : List Bool
  refs : CellList

def beginCell : Builder := ⟨[], .nil⟩

def Builder.storeBit (b : Builder) (x : Bool) : Builder := { b with bits := b.bits ++ [x] }

def Builder.storeUint (b : Builder) (n w : Nat) : Builder :=
  { b with bits := b.bits ++ natToBits n w }

def Builder.storeBuffer (b : Builder) (bs : Bytes) : Builder :=
  { b with bits := b.bits ++ bytesToBits bs }

/-- ton-core `storeCoins` (VarUInteger 16): 4-bit byte length, then that many bytes,
the minimal-length big-endian representation of the value. -/
def coinBytesNeededAux : Nat → Nat → Nat
  | 0, _ => 0
  | fuel+1, n => if n = 0 then 0 else 1 + coinBytesNeededAux fuel (n / 256)

def coinBytesNeeded (n : Nat) : Nat := coinBytesNeededAux n n

def Builder.storeCoins (b : Builder) (n : Nat) : Builder :=
  let len := coinBytesNeeded n
  { b with bits := b.bits ++ natToBits len 4 ++ natToBits n (8 * len) }

/-- ton-core `storeAddress` for an internal address: `addr_std$10`, no anycast, 8-bit
workchain (two's complement), 256-bit hash. -/
def Builder.storeAddress (b : Builder) (a : Address) : Builder :=
  { b with bits := b.bits ++ [true, false, false]
      ++ natToBits ((a.workChain % 256).toNat) 8 ++ bytesToBits a.hash }

def Builder.storeRef (b : Builder) (c : Cell) : Builder :=
  { b with refs := b.refs.append (.cons c .nil) }

def Builder.endCell (b : Builder) : Cell := .mk b.bits b.refs

/-- Remainder chain of ton-core `writeBuffer`: each overflow chunk goes into a fresh
child cell holding up to 127 whole bytes (1023-bit capacity). The fuel argument is the
initial length, a strict bound on the number of 127-byte chunks. -/
def writeRestAux : Nat → Bytes → Cell
  | 0, src => .mk (bytesToBits src) .nil
  | fuel+1, src =>
    if src.length ≤ 127 then .mk (bytesToBits src) .nil
    else .mk (bytesToBits (src.take 127)) (.cons (writeRestAux fuel (src.drop 127)) .nil)

def writeRest (src : Bytes) : Cell := writeRestAux src.length src

/-- ton-core `writeBuffer` (the body of `storeStringTail`): store what fits in the current
builder, chain the rest through fresh child cells. -/
def Builder.writeBuffer (b : Builder) (src : Bytes) : Builder :=
  if src.length = 0 then b
  else
    let bytes := (1023 - b.bits.length) / 8
    if src.length > bytes then
      (b.storeBuffer (src.take bytes)).storeRef (writeRest (src.drop bytes))
    else
      b.storeBuffer src

/-- ton-core `storeStringTail`: UTF-8 bytes of the string written with overflow chaining. -/
def Builder.storeStringTail (b : Builder) (s : Bytes) : Builder := b.writeBuffer s

/-- ton-core `storeStringRefTail`: the string tail in a fresh child cell. -/
def Builder.storeStringRefTail (b : Builder) (s : Bytes) : Builder :=
  b.storeRef ((beginCell.storeStringTail s).endCell)

/-- ton-core `storeMaybeRef`: a presence bit, then the reference if present. -/
def Builder.storeMaybeRef (b : Builder) (c : Option Cell) : Builder :=
  match c with
  | some cell => (b.storeBit true).storeRef cell
  | none => b.storeBit false

/-- ton-core `comment(src)`: a 32-bit zero tag followed by the chained string tail. -/
def comment (s : Bytes) : Cell := ((beginCell.storeUint 0 32).storeStringTail s).endCell

/-! ## Symbolic ed25519 and key derivation

The spec (§1) treats the ed25519 primitives and key derivation as assumed external
services. They are modelled symbolically: `keyPairFromSeed` is the identity pairing
(the secret and its public half are interchangeable symbols), and a signature over a
cell is valid exactly when it is the ideal deterministic signature of that cell under
the key, realised with the injective cell encoding. -/

structure KeyPair where
  publicKey : Bytes
  secretKey : Bytes

/-- Modelled from the spec: ton-crypto `keyPairFromSeed` — deterministic derivation of a
keypair from a 32-byte seed; symbolically the seed itself names both halves. -/
def keyPairFromSeed (seed : Bytes) : KeyPair := ⟨seed, seed⟩

/-- Modelled from the spec: ton-core `safeSign` — the ideal deterministic signature of a
cell under a key: the injective cell encoding followed by the key. -/
def safeSign (c : Cell) (key : Bytes) : Bytes := Cell.enc c ++ key

/-- Modelled from the spec: ton-core `safeSignVerify` — a signature is valid exactly when
it is the ideal signature of the cell under the key. -/
def safeSignVerify (c : Cell) (sig key : Bytes) : Bool := sig == safeSign c key

/-- `idFromSeed` (TonhubConnector.ts line 141): the session id is the public key derived
from the seed (its url-safe base64 transport spelling is absorbed). -/
def idFromSeed (seed : Bytes) : Bytes := (keyPairFromSeed seed).publicKey

/-- Modelled from the spec: ton-core `toBoc` — injective serialisation of a cell into an
opaque blob, compared byte-for-byte by the job state machine. -/
def encodeBoc (c : Cell) : Bytes := Cell.enc c

theorem safeSignVerify_iff (c : Cell) (sig key : Bytes) :
    safeSignVerify c sig key = true ↔ sig = safeSign c key := by
  simp [safeSignVerify]

theorem safeSign_message_inj (c c' : Cell) (key : Bytes)
    (h : safeSign c key = safeSign c' key) : c = c' := by
  have hlen : (Cell.enc c).length = (Cell.enc c').length := by
    have := congrArg List.length h
    simp [safeSign] at this
    omega
  exact Cell.enc_inj _ _ (List.append_inj h hlen).1

/-! ## Wallet contracts

`src/contracts/extractPublicKeyAndAddress.ts`: dispatch on the wallet type string; the
single supported variant decodes the wallet-v4 config blob. -/

/-- The extracted wallet identity. -/
structure ExtractedWallet where
  publicKey : Bytes
  address : Address
deriving DecidableEq

/-- The single supported wallet type tag, `'org.ton.wallets.v4'`. -/
def walletTypeV4 : Bytes := utf8 "org.ton.wallets.v4"

/-- Modelled from the spec: `walletV4FromConfig` (`src/contracts/walletV4FromConfig.ts`
is not among the provided sources; only its caller `extractPublicKeyAndAddress` is).
Spec §4.2: a versioned wallet "whose address is a deterministic function of its public
key and code", with decode failures failing closed. Modelled: a well-formed config blob
is exactly a 32-byte public key; the derived address is workchain 0 with the
deterministic (injective, fixed-code) hash of the key; any other blob is a decode
failure. -/
def walletV4FromConfig (blob : Bytes) : Option ExtractedWallet :=
  if blob.length = 32 then
    some { publicKey := blob, address := { workChain := 0, hash := blob } }
  else
    none

/-- `extractPublicKeyAndAddress` (`src/contracts/extractPublicKeyAndAddress.ts`):
wallet-type dispatch, `null` (= `none`) for unknown types or decode failures. -/
def extractPublicKeyAndAddress (walletType walletConfig : Bytes) : Option ExtractedWallet :=
  if walletType == walletTypeV4 then
    walletV4FromConfig walletConfig
  else
    none

/-! ## Connector data types (TonhubConnector.ts lines 10-139) -/

/-- `TonhubWalletConfig`: the server-relayed wallet configuration, every field as its
decoded byte value (`address` is the 36-byte friendly address). -/
structure TonhubWalletConfig where
  address : Bytes
  endpoint : Bytes
  walletType : Bytes
  walletConfig : Bytes
  walletSig : Bytes
  appPublicKey : Bytes
deriving DecidableEq

/-- The relay's raw session record (internal `SessionState` union, lines 10-37). -/
inductive SessionState : Type where
  | not_found
  | initing (name url : Bytes) (testnet : Bool) (created updated : Int) (revoked : Bool)
  | ready (name url : Bytes) (wallet : TonhubWalletConfig) (testnet : Bool)
      (created updated : Int) (revoked : Bool)
deriving DecidableEq

/-- The public, normalized session state (`TonhubSessionState`, lines 72-97). -/
inductive TonhubSessionState : Type where
  | revoked
  | initing (name url : Bytes) (created updated : Int)
  | ready (name url : Bytes) (created updated : Int) (wallet : TonhubWalletConfig)
deriving DecidableEq

/-- The result of `awaitSessionReady` (`TonhubSessionAwaited`, line 98). -/
inductive TonhubSessionAwaited : Type where
  | revoked
  | expired
  | ready (name url : Bytes) (created updated : Int) (wallet : TonhubWalletConfig)
deriving DecidableEq

/-- The relay's raw job record (internal `JobState` union, lines 39-55): `plain` covers
the `submitted`/`expired`/`rejected` shapes that carry no result. -/
inductive JobPlain : Type where
  | submitted
  | expired
  | rejected
deriving DecidableEq

inductive JobState : Type where
  | plain (state : JobPlain) (job : Bytes) (created updated now : Int)
  | completed (job : Bytes) (created updated : Int) (result : Bytes) (now : Int)
  | empty (now : Int)
deriving DecidableEq

/-- Result of one `_getJobState` poll. -/
inductive JobPollResult : Type where
  | expired
  | rejected
  | submitted
  | completed (result : Bytes)
deriving DecidableEq

/-- Terminal outcome of the `_awaitJobState` loop. -/
inductive JobOutcome : Type where
  | expired
  | rejected
  | completed (result : Bytes)
deriving DecidableEq

/-- `TonhubTransactionRequest` (lines 100-109): `value` as the parsed amount, optional
fields as `Option` over decoded bytes. -/
structure TonhubTransactionRequest where
  seed : Bytes
  appPublicKey : Bytes
  «to» : Bytes
  value : Nat
  timeout : Nat
  stateInit : Option Bytes
  text : Option Bytes
  payload : Option Bytes

/-- `TonhubTransactionResponse` (lines 111-120). -/
inductive TonhubTransactionResponse : Type where
  | success (response : Bytes)
  | rejected
  | expired
  | invalid_session
deriving DecidableEq

/-- `TonhubSignRequest` (lines 122-128). -/
structure TonhubSignRequest where
  seed : Bytes
  appPublicKey : Bytes
  timeout : Nat
  text : Option Bytes
  payload : Option Bytes

/-- `TonhubSignResponse` (lines 130-139). -/
inductive TonhubSignResponse : Type where
  | success (signature : Bytes)
  | rejected
  | expired
  | invalid_session
deriving DecidableEq

/-! ## Wallet config verification (TonhubConnector.ts lines 148-184) -/

/-- The wallet-binding proof cell built by `verifyWalletConfig` (lines 167-180): zero
coins, raw session-id bytes, the parsed address, a set flag bit, a child cell with the
endpoint bytes, a child cell with the appPublicKey bytes. -/
def walletBindingProof (session : Bytes) (address : Address) (endpoint appPublicKey : Bytes) :
    Cell :=
  ((((((beginCell.storeCoins 0).storeBuffer session).storeAddress address).storeBit
      true).storeRef
      ((beginCell.storeBuffer endpoint).endCell)).storeRef
      ((beginCell.storeBuffer appPublicKey).endCell)).endCell

/-- `TonhubConnector.verifyWalletConfig` (lines 148-184). `Address.parseFriendly` throws
on a malformed address, so the function is `Except`-valued. -/
def verifyWalletConfig (session : Bytes) (config : TonhubWalletConfig) :
    Except String Bool := do
  let parsed ← parseFriendlyAddress config.address
  let address := parsed.address
  match extractPublicKeyAndAddress config.walletType config.walletConfig with
  | none => pure false
  | some extracted =>
    if !(extracted.address.equals address) then
      pure false
    else
      let publicKey := extracted.publicKey
      let toSign := walletBindingProof session address config.endpoint config.appPublicKey
      pure (safeSignVerify toSign config.walletSig publicKey)

/-! ## Sign-response verification (crypto.ts lines 4-41) -/

/-- The text cell `verifySignatureResponse` rebuilds (crypto.ts line 27):
`args.text ? comment(args.text) : Cell.EMPTY` — the empty string is falsy. -/
def verifyResponseTextCell (text : Option Bytes) : Cell :=
  match text with
  | some s => if s.isEmpty then Cell.EMPTY else comment s
  | none => Cell.EMPTY

/-- The comment cell `requestSign` embeds in the sign job (TonhubConnector.ts lines
411-419): `comment(commentMsg)` where `commentMsg` is `''` unless `text` is a string. -/
def signJobCommentCell (text : Option Bytes) : Cell :=
  comment (match text with | some s => s | none => [])

/-- Arguments of `verifySignatureResponse` (crypto.ts lines 4-9); `config` receives the
whole wallet config (only `address`/`walletType`/`walletConfig` are read). -/
structure SignatureResponseArgs where
  signature : Bytes
  text : Option Bytes
  payload : Option Bytes
  config : TonhubWalletConfig

/-- `verifySignatureResponse` (crypto.ts lines 4-41), parameterised by the external BOC
decoder used for the payload blob. -/
def verifySignatureResponse (fromBoc : Bytes → Option Cell) (args : SignatureResponseArgs) :
    Except String Bool := do
  let parsed ← parseFriendlyAddress args.config.address
  let address := parsed.address
  match extractPublicKeyAndAddress args.config.walletType args.config.walletConfig with
  | none => pure false
  | some extracted =>
    if !(extracted.address.equals address) then
      pure false
    else
      let publicKey := extracted.publicKey
      let textCell := verifyResponseTextCell args.text
      let payloadCell ← match args.payload with
        | some p =>
          match fromBoc p with
          | some c => pure c
          | none => Except.error "Invalid payload cell"
        | none => pure Cell.EMPTY
      let data := ((beginCell.storeRef textCell).storeRef payloadCell).endCell
      pure (safeSignVerify data args.signature publicKey)

/-! ## Bounded retry (backoff)

`src/utils/time.ts` is not among the provided sources; its old in-repo counterpart
(`createBackoff({ maxFailureCount: 5, ... })` over teslabot) and spec §5 describe it:
a wrapped callback is re-invoked on error under bounded exponential backoff with a
fixed maximum failure count, and exhausting the budget surfaces the underlying error. -/

/-- The fixed failure budget (`maxFailureCount: 5` in the repo's backoff setup). -/
def backoffMaxFailures : Nat := 5

/-- Modelled from the spec: `backoff(callback)` for a deterministic callback — an `ok`
result is returned after one invocation; an error is re-tried until the failure budget
is exhausted and then surfaced. The second component counts callback invocations. -/
def backoffRun {α : Type} (r : Except String α) : Except String α × Nat :=
  match r with
  | .ok a => (.ok a, 1)
  | .error e => (.error e, backoffMaxFailures)

/-! ## Session state machine (TonhubConnector.ts lines 232-312)

The client network flag `net` is `this.network === 'testnet'`. -/

/-- `TonhubConnector.ensureSessionStateCorrect` (lines 232-274). -/
def ensureSessionStateCorrect (net : Bool) (sessionId : Bytes) (ex : SessionState) :
    Except String TonhubSessionState :=
  match ex with
  | .initing name url testnet created updated _revoked =>
    if testnet != net then
      .ok .revoked
    else
      .ok (.initing name url created updated)
  | .ready name url wallet testnet created updated revoked =>
    if revoked then
      .ok .revoked
    else if testnet != net then
      .ok .revoked
    else do
      let v ← verifyWalletConfig sessionId wallet
      if !v then
        .error "Integrity check failed"
      else
        .ok (.ready name url created updated wallet)
  | .not_found => .ok .revoked

/-- `TonhubConnector.getSessionState` (lines 276-283): one `session_get` transport call
(the oracle's record `resp`) normalized under the retry wrapper; the second component
counts callback invocations. -/
def getSessionState (net : Bool) (sessionId : Bytes) (resp : SessionState) :
    Except String TonhubSessionState × Nat :=
  backoffRun (ensureSessionStateCorrect net sessionId resp)

/-- `TonhubConnector.waitForSessionState` (lines 285-293): identical normalization, the
transport call being the long-poll `session_wait`. -/
def waitForSessionState (net : Bool) (sessionId : Bytes) (resp : SessionState) :
    Except String TonhubSessionState × Nat :=
  backoffRun (ensureSessionStateCorrect net sessionId resp)

/-- The polling loop of `awaitSessionReady` (lines 297-310). `recs k` is the record the
`k`-th long poll returns and `rts k` the wall-clock duration of that round trip; the
loop checks the clock, polls, returns on a terminal state and otherwise sleeps the fixed
1000 ms before re-checking. The returned clock is the time the result is produced. -/
def awaitSessionReadyLoop (net : Bool) (sessionId : Bytes) (recs : Nat → SessionState)
    (rts : Nat → Nat) (expires : Nat) (k now : Nat) :
    Except String (TonhubSessionAwaited × Nat) :=
  if _h : now < expires then
    match (waitForSessionState net sessionId (recs k)).1 with
    | .error e => .error e
    | .ok st =>
      match st with
      | .ready name url created updated wallet =>
        .ok (.ready name url created updated wallet, now + rts k)
      | .revoked => .ok (.revoked, now + rts k)
      | .initing _ _ _ _ =>
        awaitSessionReadyLoop net sessionId recs rts expires (k+1) (now + rts k + 1000)
  else
    .ok (.expired, now)
termination_by expires - now
decreasing_by omega

/-- `TonhubConnector.awaitSessionReady` (lines 295-312): `expires = now + timeout`, the
loop under the retry wrapper. -/
def awaitSessionReady (net : Bool) (sessionId : Bytes) (recs : Nat → SessionState)
    (rts : Nat → Nat) (start timeout : Nat) :
    Except String (TonhubSessionAwaited × Nat) :=
  (backoffRun (awaitSessionReadyLoop net sessionId recs rts (start + timeout) 0 start)).1

/-! ## Job state machine (TonhubConnector.ts lines 472-514) -/

/-- `TonhubConnector._getJobState` (lines 490-514): `empty` maps to `expired`; any
record whose blob differs from the submitted `boc` maps to `rejected`; otherwise the
relay state is passed through. -/
def _getJobState (boc : Bytes) (res : JobState) : JobPollResult :=
  match res with
  | .empty _ => .expired
  | .plain state job _ _ _ =>
    if job != boc then
      .rejected
    else
      match state with
      | .submitted => .submitted
      | .expired => .expired
      | .rejected => .rejected
  | .completed job _ _ result _ =>
    if job != boc then
      .rejected
    else
      .completed result

/-- `TonhubConnector._awaitJobState` (lines 472-488): poll until a terminal state;
`submitted` sleeps and retries. `resps k` is the record of the `k`-th `command_get`
call; `fuel` bounds the model's unrolling of the source's unbounded `while (true)`
(running out of fuel is the model's rendering of non-termination). -/
def _awaitJobState (boc : Bytes) (resps : Nat → JobState) : Nat → Nat →
    Except String JobOutcome
  | _, 0 => .error "model: job polling loop unrolled past its fuel"
  | k, fuel+1 =>
    match _getJobState boc (resps k) with
    | .expired => .ok .expired
    | .completed r => .ok (.completed r)
    | .rejected => .ok .rejected
    | .submitted => _awaitJobState boc resps (k+1) fuel

/-! ## Job submission (TonhubConnector.ts lines 314-470)

Both request pipelines are functions of the request, the relay oracle (the session
record `sessResp` and the job records `jobResps`), the external BOC decoder `fromBoc`,
the clock `now`, and the polling fuel. The second component of a successful result
records whether a `command_new` job submission was posted to the transport. -/

/-- `slice.loadBuffer(64)` on a freshly parsed cell (TonhubConnector.ts line 453):
the first 64 bytes of the cell's bits; throws when fewer bits are available. -/
def loadBuffer64 (c : Cell) : Except String Bytes :=
  if 512 ≤ c.bits.length then
    .ok (bitsToBytes (c.bits.take 512))
  else
    .error "Invalid number of bits"

/-- The transaction job cell (lines 352-363). -/
def transactionJobCell (appPublicKey : Bytes) (expires : Nat) (address : Address)
    (value : Nat) (commentMsg : Bytes) (data stateInit : Option Cell) : Cell :=
  ((((beginCell.storeBuffer appPublicKey).storeUint expires 32).storeCoins 0).storeRef
    (((((beginCell.storeAddress address).storeCoins value).storeStringRefTail
        commentMsg).storeMaybeRef data).storeMaybeRef stateInit).endCell).endCell

/-- The outer signed envelope (lines 370-374 and 435-439):
`{signature, publicKey, ref(job)}`. -/
def packageCell (signature publicKey : Bytes) (job : Cell) : Cell :=
  (((beginCell.storeBuffer signature).storeBuffer publicKey).storeRef job).endCell

/-- `TonhubConnector.requestTransaction` (lines 314-390). -/
def requestTransaction (net : Bool) (fromBoc : Bytes → Option Cell)
    (sessResp : SessionState) (jobResps : Nat → JobState) (fuel : Nat) (now : Nat)
    (request : TonhubTransactionRequest) :
    Except String (TonhubTransactionResponse × Bool) := do
  let sessionId := idFromSeed request.seed
  let session ← (backoffRun (getSessionState net sessionId sessResp).1).1
  match session with
  | .ready _ _ _ _ wallet =>
    if wallet.appPublicKey != request.appPublicKey then
      pure (.invalid_session, false)
    else do
      let parsed ← parseFriendlyAddress request.«to»
      let address := parsed.address
      let value := request.value
      let data ← match request.payload with
        | some p =>
          match fromBoc p with
          | some c => pure (some c)
          | none => Except.error "Invalid payload cell"
        | none => pure none
      let stateInit ← match request.stateInit with
        | some p =>
          match fromBoc p with
          | some c => pure (some c)
          | none => Except.error "Invalid stateInit cell"
        | none => pure none
      let commentMsg := match request.text with | some t => t | none => []
      let expires := (now + request.timeout) / 1000
      let job := transactionJobCell wallet.appPublicKey expires address value commentMsg
        data stateInit
      let keypair := keyPairFromSeed request.seed
      let signature := safeSign job keypair.secretKey
      let boc := encodeBoc (packageCell signature keypair.publicKey job)
      let result ← _awaitJobState boc jobResps 0 fuel
      match result with
      | .completed r => pure (.success r, true)
      | .rejected => pure (.rejected, true)
      | .expired => pure (.expired, true)
  | _ => pure (.invalid_session, false)

/-- The sign job cell (lines 417-428). -/
def signJobCell (appPublicKey : Bytes) (expires : Nat) (commentCell data : Cell) : Cell :=
  ((((beginCell.storeBuffer appPublicKey).storeUint expires 32).storeCoins 1).storeRef
    ((beginCell.storeRef commentCell).storeRef data).endCell).endCell

/-- `TonhubConnector.requestSign` (lines 392-470). -/
def requestSign (net : Bool) (fromBoc : Bytes → Option Cell)
    (sessResp : SessionState) (jobResps : Nat → JobState) (fuel : Nat) (now : Nat)
    (request : TonhubSignRequest) :
    Except String (TonhubSignResponse × Bool) := do
  let sessionId := idFromSeed request.seed
  let session ← (backoffRun (getSessionState net sessionId sessResp).1).1
  match session with
  | .ready _ _ _ _ wallet =>
    if wallet.appPublicKey != request.appPublicKey then
      pure (.invalid_session, false)
    else do
      let data ← match request.payload with
        | some p =>
          match fromBoc p with
          | some c => pure c
          | none => Except.error "Invalid payload cell"
        | none => pure Cell.EMPTY
      let commentCell := signJobCommentCell request.text
      let expires := (now + request.timeout) / 1000
      let job := signJobCell wallet.appPublicKey expires commentCell data
      let keypair := keyPairFromSeed request.seed
      let signature := safeSign job keypair.secretKey
      let boc := encodeBoc (packageCell signature keypair.publicKey job)
      let result ← _awaitJobState boc jobResps 0 fuel
      match result with
      | .completed r => do
        let cellRes ← match fromBoc r with
          | some c => pure c
          | none => Except.error "Invalid result cell"
        let resSignature ← loadBuffer64 cellRes
        let correct ← verifySignatureResponse fromBoc
          { signature := resSignature
            text := request.text
            payload := request.payload
            config := wallet }
        if correct then
          pure (.success resSignature, true)
        else
          pure (.rejected, true)
      | .rejected => pure (.rejected, true)
      | .expired => pure (.expired, true)
  | _ => pure (.invalid_session, false)

/-! ## Concrete demonstration data

A small, fully concrete session/config pair used by the witnesses: a zero seed, the
wallet public key of 32 zero bytes, the matching workchain-0 friendly address (crc16
computed over its first 34 bytes) and a wallet signature produced by the ideal signing
function over the exact binding proof. -/

def demoSeed : Bytes := List.replicate 32 0

def demoSession : Bytes := idFromSeed demoSeed

def demoPk : Bytes := List.replicate 32 0

def demoAddress : Address := { workChain := 0, hash := List.replicate 32 0 }

def demoAddressBytes : Bytes := [0x11, 0] ++ List.replicate 32 0 ++ [207, 92]

def demoEndpoint : Bytes := utf8 "connect.tonhubapi.com"

def demoWalletConfig : TonhubWalletConfig :=
  { address := demoAddressBytes
    endpoint := demoEndpoint
    walletType := walletTypeV4
    walletConfig := demoPk
    walletSig := safeSign (walletBindingProof demoSession demoAddress demoEndpoint demoSession)
      demoPk
    appPublicKey := demoSession }

/-! ## Helper lemmas -/

set_option maxRecDepth 100000

theorem backoffRun_ok {α : Type} (a : α) : backoffRun (.ok a) = (.ok a, 1) := rfl

theorem backoffRun_error {α : Type} (e : String) :
    backoffRun (.error e : Except String α) = (.error e, backoffMaxFailures) := rfl

theorem getD_set_self : ∀ (l : Bytes) (i v : Nat), i < l.length → (l.set i v).getD i 0 = v := by
  intro l
  induction l with
  | nil => intro i v hi; simp at hi
  | cons x xs ih =>
    intro i v hi
    cases i with
    | zero => simp
    | succ j =>
      simp only [List.set, List.getD, List.length_cons] at *
      exact ih j v (by omega)

theorem set_ne_self (l : Bytes) (i v : Nat) (hi : i < l.length) (hv : v ≠ l.getD i 0) :
    l.set i v ≠ l := by
  intro h
  apply hv
  have := getD_set_self l i v hi
  rw [h] at this
  omega

theorem mem_set_lt (l : Bytes) (i v : Nat) (hb : ∀ b ∈ l, b < 256) (hv : v < 256) :
    ∀ b ∈ l.set i v, b < 256 := by
  intro b hmem
  rcases List.mem_or_eq_of_mem_set hmem with h | h
  · exact hb b h
  · omega

/-- The fully evaluated shape of the wallet-binding proof cell. -/
theorem walletBindingProof_parts (session : Bytes) (address : Address) (e k : Bytes) :
    walletBindingProof session address e k =
      Cell.mk (natToBits 0 4 ++ natToBits 0 0 ++ bytesToBits session
          ++ ([true, false, false] ++ natToBits ((address.workChain % 256).toNat) 8
              ++ bytesToBits address.hash) ++ [true])
        (.cons (.mk (bytesToBits e) .nil) (.cons (.mk (bytesToBits k) .nil) .nil)) := by
  simp [walletBindingProof, beginCell, Builder.storeCoins, Builder.storeBuffer,
    Builder.storeAddress, Builder.storeBit, Builder.storeRef, Builder.endCell,
    CellList.append, coinBytesNeeded, coinBytesNeededAux]

theorem walletBindingProof_endpoint_inj (s : Bytes) (a : Address) (e e' k : Bytes)
    (h : walletBindingProof s a e k = walletBindingProof s a e' k) :
    bytesToBits e = bytesToBits e' := by
  rw [walletBindingProof_parts, walletBindingProof_parts] at h
  injection h with _ hr
  injection hr with hc _
  injection hc

theorem walletBindingProof_appk_inj (s : Bytes) (a : Address) (e k k' : Bytes)
    (h : walletBindingProof s a e k = walletBindingProof s a e k') :
    bytesToBits k = bytesToBits k' := by
  rw [walletBindingProof_parts, walletBindingProof_parts] at h
  injection h with _ hr
  injection hr with _ hr2
  injection hr2 with hc _
  injection hc

/-- Evaluated form of `verifyWalletConfig` once the address has parsed and the wallet
identity has been extracted. -/
theorem verifyWalletConfig_eq (session : Bytes) (config : TonhubWalletConfig)
    (pa : FriendlyAddress) (ext : ExtractedWallet)
    (hparse : parseFriendlyAddress config.address = .ok pa)
    (hext : extractPublicKeyAndAddress config.walletType config.walletConfig = some ext) :
    verifyWalletConfig session config =
      .ok (ext.address.equals pa.address &&
        safeSignVerify (walletBindingProof session pa.address config.endpoint
          config.appPublicKey) config.walletSig ext.publicKey) := by
  unfold verifyWalletConfig
  rw [hparse, hext]
  cases h : ext.address.equals pa.address <;>
    simp [Except.instMonad, Except.bind, h, pure, Except.pure]

theorem verifyWalletConfig_error (session : Bytes) (config : TonhubWalletConfig)
    (e : String) (hparse : parseFriendlyAddress config.address = .error e) :
    verifyWalletConfig session config = .error e := by
  unfold verifyWalletConfig
  rw [hparse]
  rfl

theorem verifyWalletConfig_extract_none (session : Bytes) (config : TonhubWalletConfig)
    (pa : FriendlyAddress)
    (hparse : parseFriendlyAddress config.address = .ok pa)
    (hext : extractPublicKeyAndAddress config.walletType config.walletConfig = none) :
    verifyWalletConfig session config = .ok false := by
  unfold verifyWalletConfig
  rw [hparse, hext]
  rfl

/-! ## Claim C1 -/

/-- C1 (amended). With the claimed address parsed and the wallet identity extracted from
`walletType`/`walletConfig`, `verifyWalletConfig session config` returns `true` exactly
when the extracted address equals the parsed address and `walletSig` is a valid
signature, under the extracted public key, over the wallet-binding proof cell (zero
coins, raw session-id bytes, the parsed address, a set flag bit, a child cell with the
endpoint bytes, a child cell with the appPublicKey bytes). Consequently changing any
single byte of `walletSig`, `endpoint` or `appPublicKey` of a config that verified makes
it return `false`. (Changing a byte of the `address` field instead makes the call throw
an address-parse error, see the counterexample.) -/
theorem verifyWalletConfig_characterization
    (session : Bytes) (config : TonhubWalletConfig)
    (pa : FriendlyAddress) (ext : ExtractedWallet)
    (hparse : parseFriendlyAddress config.address = .ok pa)
    (hext : extractPublicKeyAndAddress config.walletType config.walletConfig = some ext) :
    (verifyWalletConfig session config = .ok true ↔
      (ext.address.equals pa.address = true ∧
        safeSignVerify (walletBindingProof session pa.address config.endpoint
          config.appPublicKey) config.walletSig ext.publicKey = true)) ∧
    (∀ i v, i < config.walletSig.length → v ≠ config.walletSig.getD i 0 →
      verifyWalletConfig session config = .ok true →
      verifyWalletConfig session { config with walletSig := config.walletSig.set i v }
        = .ok false) ∧
    (∀ i v, i < config.endpoint.length → v ≠ config.endpoint.getD i 0 → v < 256 →
      (∀ b ∈ config.endpoint, b < 256) →
      verifyWalletConfig session config = .ok true →
      verifyWalletConfig session { config with endpoint := config.endpoint.set i v }
        = .ok false) ∧
    (∀ i v, i < config.appPublicKey.length → v ≠ config.appPublicKey.getD i 0 → v < 256 →
      (∀ b ∈ config.appPublicKey, b < 256) →
      verifyWalletConfig session config = .ok true →
      verifyWalletConfig session { config with appPublicKey := config.appPublicKey.set i v }
        = .ok false) := by
  have heq := verifyWalletConfig_eq session config pa ext hparse hext
  refine ⟨?_, ?_, ?_, ?_⟩
  · rw [heq]
    simp [Bool.and_eq_true]
  · intro i v hi hv horig
    rw [heq] at horig
    simp only [Except.ok.injEq, Bool.and_eq_true] at horig
    obtain ⟨hA, hV⟩ := horig
    have hsig := (safeSignVerify_iff _ _ _).1 hV
    have heq2 := verifyWalletConfig_eq session
      { config with walletSig := config.walletSig.set i v } pa ext
      (by simpa using hparse) (by simpa using hext)
    rw [heq2]
    simp only [hA, Bool.true_and]
    have hne : config.walletSig.set i v ≠
        safeSign (walletBindingProof session pa.address config.endpoint config.appPublicKey)
          ext.publicKey := by
      rw [← hsig]
      exact set_ne_self _ _ _ hi hv
    simp [safeSignVerify, hne]
  · intro i v hi hv hvlt hbound horig
    rw [heq] at horig
    simp only [Except.ok.injEq, Bool.and_eq_true] at horig
    obtain ⟨hA, hV⟩ := horig
    have hsig := (safeSignVerify_iff _ _ _).1 hV
    have heq2 := verifyWalletConfig_eq session
      { config with endpoint := config.endpoint.set i v } pa ext
      (by simpa using hparse) (by simpa using hext)
    rw [heq2]
    simp only [hA, Bool.true_and]
    have hne : config.walletSig ≠
        safeSign (walletBindingProof session pa.address (config.endpoint.set i v)
          config.appPublicKey) ext.publicKey := by
      rw [hsig]
      intro habs
      have hcell := safeSign_message_inj _ _ _ habs
      have hbits := walletBindingProof_endpoint_inj _ _ _ _ _ hcell
      have := bytesToBits_inj _ _ hbound (mem_set_lt _ _ _ hbound hvlt) hbits
      exact set_ne_self _ _ _ hi hv this.symm
    simp [safeSignVerify, hne]
  · intro i v hi hv hvlt hbound horig
    rw [heq] at horig
    simp only [Except.ok.injEq, Bool.and_eq_true] at horig
    obtain ⟨hA, hV⟩ := horig
    have hsig := (safeSignVerify_iff _ _ _).1 hV
    have heq2 := verifyWalletConfig_eq session
      { config with appPublicKey := config.appPublicKey.set i v } pa ext
      (by simpa using hparse) (by simpa using hext)
    rw [heq2]
    simp only [hA, Bool.true_and]
    have hne : config.walletSig ≠
        safeSign (walletBindingProof session pa.address config.endpoint
          (config.appPublicKey.set i v)) ext.publicKey := by
      rw [hsig]
      intro habs
      have hcell := safeSign_message_inj _ _ _ habs
      have hbits := walletBindingProof_appk_inj _ _ _ _ _ hcell
      have := bytesToBits_inj _ _ hbound (mem_set_lt _ _ _ hbound hvlt) hbits
      exact set_ne_self _ _ _ hi hv this.symm
    simp [safeSignVerify, hne]

/-- The parsed form of the demo address. -/
def demoFriendly : FriendlyAddress :=
  { isBounceable := true, isTestOnly := false, address := demoAddress }

/-- The demo wallet identity extracted from the demo config. -/
def demoExtracted : ExtractedWallet := { publicKey := demoPk, address := demoAddress }

/-- C1 witness: the characterization applied to the fully concrete demo session/config. -/
theorem verifyWalletConfig_characterization_witness :
    (verifyWalletConfig demoSession demoWalletConfig = .ok true ↔
      (demoExtracted.address.equals demoFriendly.address = true ∧
        safeSignVerify (walletBindingProof demoSession demoFriendly.address
          demoWalletConfig.endpoint demoWalletConfig.appPublicKey)
          demoWalletConfig.walletSig demoExtracted.publicKey = true)) ∧
    (∀ i v, i < demoWalletConfig.walletSig.length → v ≠ demoWalletConfig.walletSig.getD i 0 →
      verifyWalletConfig demoSession demoWalletConfig = .ok true →
      verifyWalletConfig demoSession
        { demoWalletConfig with walletSig := demoWalletConfig.walletSig.set i v }
        = .ok false) ∧
    (∀ i v, i < demoWalletConfig.endpoint.length → v ≠ demoWalletConfig.endpoint.getD i 0 →
      v < 256 → (∀ b ∈ demoWalletConfig.endpoint, b < 256) →
      verifyWalletConfig demoSession demoWalletConfig = .ok true →
      verifyWalletConfig demoSession
        { demoWalletConfig with endpoint := demoWalletConfig.endpoint.set i v }
        = .ok false) ∧
    (∀ i v, i < demoWalletConfig.appPublicKey.length →
      v ≠ demoWalletConfig.appPublicKey.getD i 0 →
      v < 256 → (∀ b ∈ demoWalletConfig.appPublicKey, b < 256) →
      verifyWalletConfig demoSession demoWalletConfig = .ok true →
      verifyWalletConfig demoSession
        { demoWalletConfig with appPublicKey := demoWalletConfig.appPublicKey.set i v }
        = .ok false) :=
  verifyWalletConfig_characterization demoSession demoWalletConfig demoFriendly demoExtracted
    (by decide) (by decide)

/-- The demo config with one byte of the friendly address changed (tag byte 0x11 set to
0x51 — even a flip that would keep the parsed address identical breaks the checksum). -/
def demoConfigAddrFlipped : TonhubWalletConfig :=
  { demoWalletConfig with address := demoAddressBytes.set 0 0x51 }

/-- C1 counterexample. The demo config verifies, yet flipping a single byte of its
`address` does not make `verifyWalletConfig` return `false` as the claim states: the
call throws the address-parse checksum error instead of returning at all. -/
theorem verifyWalletConfig_addr_flip_throws :
    verifyWalletConfig demoSession demoWalletConfig = .ok true ∧
    verifyWalletConfig demoSession demoConfigAddrFlipped = .error "Invalid checksum" ∧
    (∀ b : Bool, verifyWalletConfig demoSession demoConfigAddrFlipped ≠ .ok b) := by
  refine ⟨by decide, by decide, ?_⟩
  intro b
  have h : verifyWalletConfig demoSession demoConfigAddrFlipped = .error "Invalid checksum" :=
    by decide
  rw [h]
  intro habs
  injection habs

/-! ## Claim C2 -/

def demoName : Bytes := utf8 "DemoApp"

def demoUrl : Bytes := utf8 "https://demo.example"

/-- The demo config with one byte of the wallet signature changed, so that integrity
verification fails (returns `ok false`) on an otherwise well-formed ready record. -/
def demoBadSigConfig : TonhubWalletConfig :=
  { demoWalletConfig with walletSig := demoWalletConfig.walletSig.set 0 1 }

/-- A ready mainnet relay record carrying the bad-signature config. -/
def demoBadReadyRecord : SessionState :=
  .ready demoName demoUrl demoBadSigConfig false 0 0 false

/-- C2 (amended). A `ready`, unrevoked, network-matching record whose wallet config
fails verification makes `getSessionState`/`waitForSessionState` surface the fatal
`Integrity check failed` error: the failure is never converted into a normal
session-state value. The error is however not raised on the first attempt: the call
sits inside the bounded retry wrapper, which re-invokes it up to its failure budget
before surfacing the error. -/
theorem integrityFailureIsFatal
    (net : Bool) (sid name url : Bytes) (wallet : TonhubWalletConfig)
    (created updated : Int)
    (hver : verifyWalletConfig sid wallet = .ok false) :
    (getSessionState net sid (.ready name url wallet net created updated false)).1
      = .error "Integrity check failed" ∧
    (waitForSessionState net sid (.ready name url wallet net created updated false)).1
      = .error "Integrity check failed" ∧
    (getSessionState net sid (.ready name url wallet net created updated false)).2
      = backoffMaxFailures ∧
    (∀ st : TonhubSessionState,
      (getSessionState net sid (.ready name url wallet net created updated false)).1
        ≠ .ok st) := by
  have hens : ensureSessionStateCorrect net sid
      (.ready name url wallet net created updated false) = .error "Integrity check failed" := by
    simp only [ensureSessionStateCorrect]
    simp [hver, Except.instMonad, Except.bind]
  refine ⟨?_, ?_, ?_, ?_⟩
  · simp [getSessionState, hens, backoffRun]
  · simp [waitForSessionState, hens, backoffRun]
  · simp [getSessionState, hens, backoffRun]
  · intro st
    simp [getSessionState, hens, backoffRun]

/-- C2 witness: the integrity-failure behaviour at the concrete bad-signature record. -/
theorem integrityFailureIsFatal_witness :
    (getSessionState false demoSession
        (.ready demoName demoUrl demoBadSigConfig false 0 0 false)).1
      = .error "Integrity check failed" ∧
    (waitForSessionState false demoSession
        (.ready demoName demoUrl demoBadSigConfig false 0 0 false)).1
      = .error "Integrity check failed" ∧
    (getSessionState false demoSession
        (.ready demoName demoUrl demoBadSigConfig false 0 0 false)).2
      = backoffMaxFailures ∧
    (∀ st : TonhubSessionState,
      (getSessionState false demoSession
          (.ready demoName demoUrl demoBadSigConfig false 0 0 false)).1
        ≠ .ok st) :=
  integrityFailureIsFatal false demoSession demoName demoUrl demoBadSigConfig 0 0 (by decide)

/-- C2 counterexample. The claim says the failing call "is not retried" and the error is
raised "immediately"; on the concrete bad-signature record the normalization error is
produced only after the retry wrapper has invoked the callback its full failure budget
of times (5, not 1). -/
theorem integrityFailureIsRetried :
    (getSessionState false demoSession demoBadReadyRecord).1 = .error "Integrity check failed" ∧
    (getSessionState false demoSession demoBadReadyRecord).2 = backoffMaxFailures ∧
    backoffMaxFailures ≠ 1 :=
  ⟨by decide, by decide, by decide⟩

/-! ## Claim C3 -/

/-- C3. A relay record (either `initing` or `ready`) whose `testnet` flag differs from
the client's configured network normalizes to `revoked` in `ensureSessionStateCorrect`,
hence in `getSessionState` and `waitForSessionState`; a `ready` record flagged revoked
also normalizes to `revoked`. -/
theorem networkMismatchNormalizesRevoked (net : Bool) (sid : Bytes) :
    (∀ name url testnet created updated revoked, testnet ≠ net →
      ensureSessionStateCorrect net sid (.initing name url testnet created updated revoked)
        = .ok .revoked ∧
      (getSessionState net sid (.initing name url testnet created updated revoked)).1
        = .ok .revoked ∧
      (waitForSessionState net sid (.initing name url testnet created updated revoked)).1
        = .ok .revoked) ∧
    (∀ name url wallet testnet created updated revoked, testnet ≠ net →
      ensureSessionStateCorrect net sid
          (.ready name url wallet testnet created updated revoked) = .ok .revoked ∧
      (getSessionState net sid (.ready name url wallet testnet created updated revoked)).1
        = .ok .revoked ∧
      (waitForSessionState net sid
          (.ready name url wallet testnet created updated revoked)).1 = .ok .revoked) ∧
    (∀ name url wallet testnet created updated,
      ensureSessionStateCorrect net sid
          (.ready name url wallet testnet created updated true) = .ok .revoked ∧
      (getSessionState net sid (.ready name url wallet testnet created updated true)).1
        = .ok .revoked ∧
      (waitForSessionState net sid
          (.ready name url wallet testnet created updated true)).1 = .ok .revoked) := by
  refine ⟨?_, ?_, ?_⟩
  · intro name url testnet created updated revoked h
    have hens : ensureSessionStateCorrect net sid
        (.initing name url testnet created updated revoked) = .ok .revoked := by
      unfold ensureSessionStateCorrect
      cases testnet <;> cases net <;> simp_all
    exact ⟨hens, by simp [getSessionState, hens, backoffRun],
      by simp [waitForSessionState, hens, backoffRun]⟩
  · intro name url wallet testnet created updated revoked h
    have hens : ensureSessionStateCorrect net sid
        (.ready name url wallet testnet created updated revoked) = .ok .revoked := by
      unfold ensureSessionStateCorrect
      cases revoked <;> cases testnet <;> cases net <;> simp_all
    exact ⟨hens, by simp [getSessionState, hens, backoffRun],
      by simp [waitForSessionState, hens, backoffRun]⟩
  · intro name url wallet testnet created updated
    have hens : ensureSessionStateCorrect net sid
        (.ready name url wallet testnet created updated true) = .ok .revoked := by
      unfold ensureSessionStateCorrect
      simp
    exact ⟨hens, by simp [getSessionState, hens, backoffRun],
      by simp [waitForSessionState, hens, backoffRun]⟩

/-- C3 witness: network-mismatch and revoked-flag normalization at concrete records (a
testnet record seen by a mainnet client, and a revoked ready record). -/
theorem networkMismatchNormalizesRevoked_witness :
    (ensureSessionStateCorrect false demoSession (.initing demoName demoUrl true 0 0 false)
      = .ok .revoked ∧
      (getSessionState false demoSession (.initing demoName demoUrl true 0 0 false)).1
        = .ok .revoked ∧
      (waitForSessionState false demoSession (.initing demoName demoUrl true 0 0 false)).1
        = .ok .revoked) ∧
    (ensureSessionStateCorrect false demoSession
        (.ready demoName demoUrl demoWalletConfig true 0 0 false) = .ok .revoked ∧
      (getSessionState false demoSession
          (.ready demoName demoUrl demoWalletConfig true 0 0 false)).1 = .ok .revoked ∧
      (waitForSessionState false demoSession
          (.ready demoName demoUrl demoWalletConfig true 0 0 false)).1 = .ok .revoked) ∧
    (ensureSessionStateCorrect false demoSession
        (.ready demoName demoUrl demoWalletConfig false 0 0 true) = .ok .revoked ∧
      (getSessionState false demoSession
          (.ready demoName demoUrl demoWalletConfig false 0 0 true)).1 = .ok .revoked ∧
      (waitForSessionState false demoSession
          (.ready demoName demoUrl demoWalletConfig false 0 0 true)).1 = .ok .revoked) :=
  ⟨(networkMismatchNormalizesRevoked false demoSession).1 demoName demoUrl true 0 0 false
      (by decide),
    (networkMismatchNormalizesRevoked false demoSession).2.1 demoName demoUrl
      demoWalletConfig true 0 0 false (by decide),
    (networkMismatchNormalizesRevoked false demoSession).2.2 demoName demoUrl
      demoWalletConfig false 0 0⟩

/-! ## Claim C4 -/

/-- C4. `_getJobState` maps the relay's `empty` state to `expired`; every non-empty
record whose job blob differs from the blob this client submitted maps to `rejected`
regardless of the relay-reported state, including a `completed` record with a result. -/
theorem jobStateNormalization (boc : Bytes) :
    (∀ now, _getJobState boc (.empty now) = .expired) ∧
    (∀ st job created updated now, job ≠ boc →
      _getJobState boc (.plain st job created updated now) = .rejected) ∧
    (∀ job created updated result now, job ≠ boc →
      _getJobState boc (.completed job created updated result now) = .rejected) := by
  refine ⟨fun now => rfl, ?_, ?_⟩
  · intro st job created updated now h
    unfold _getJobState
    simp [h]
  · intro job created updated result now h
    unfold _getJobState
    simp [h]

/-- C4 witness: the job normalization at concrete records — an empty record, and a
foreign `completed` record carrying a result, both against submitted blob `[1, 2]`. -/
theorem jobStateNormalization_witness :
    (_getJobState [1, 2] (.empty 7) = .expired) ∧
    (_getJobState [1, 2] (.plain .submitted [3] 0 0 0) = .rejected) ∧
    (_getJobState [1, 2] (.completed [3] 0 0 [9] 0) = .rejected) :=
  ⟨(jobStateNormalization [1, 2]).1 7,
    (jobStateNormalization [1, 2]).2.1 .submitted [3] 0 0 0 (by decide),
    (jobStateNormalization [1, 2]).2.2 [3] 0 0 [9] 0 (by decide)⟩

/-! ## Claim C10 -/

/-- C10. A relay record that is neither `initing` nor `ready` — in the relay's record
type this is exactly the `not_found` state — normalizes to `revoked`: the public
session-state API never surfaces `not_found`. -/
theorem notFoundNormalizesRevoked (net : Bool) (sid : Bytes) :
    ensureSessionStateCorrect net sid .not_found = .ok .revoked ∧
    (getSessionState net sid .not_found).1 = .ok .revoked ∧
    (waitForSessionState net sid .not_found).1 = .ok .revoked :=
  ⟨rfl, rfl, rfl⟩

/-! ## Claim C6 -/

/-- C6 (amended). `verifyWalletConfig` fails closed — returns `false` rather than
throwing — for an unknown wallet type and for an undecodable `walletConfig` blob
(provided the address field itself parses); a malformed `address` string, however, makes
the call throw the address-parse error instead of returning `false`. -/
theorem verifyWalletConfigFailsClosed (session : Bytes) (config : TonhubWalletConfig) :
    (∀ pa, parseFriendlyAddress config.address = .ok pa →
      config.walletType ≠ walletTypeV4 →
      verifyWalletConfig session config = .ok false) ∧
    (∀ pa, parseFriendlyAddress config.address = .ok pa →
      walletV4FromConfig config.walletConfig = none →
      verifyWalletConfig session config = .ok false) ∧
    (∀ e, parseFriendlyAddress config.address = .error e →
      verifyWalletConfig session config = .error e) := by
  refine ⟨?_, ?_, ?_⟩
  · intro pa hpa hwt
    apply verifyWalletConfig_extract_none session config pa hpa
    simp [extractPublicKeyAndAddress, hwt]
  · intro pa hpa hdec
    apply verifyWalletConfig_extract_none session config pa hpa
    unfold extractPublicKeyAndAddress
    by_cases h : config.walletType == walletTypeV4 <;> simp [h, hdec]
  · intro e he
    exact verifyWalletConfig_error session config e he

/-- C6 witness: fail-closed and throwing behaviour at concrete configs — an unknown
wallet type, an undecodable config blob, and a malformed (empty) address. -/
theorem verifyWalletConfigFailsClosed_witness :
    verifyWalletConfig demoSession { demoWalletConfig with walletType := utf8 "unknown" }
      = .ok false ∧
    verifyWalletConfig demoSession { demoWalletConfig with walletConfig := [] }
      = .ok false ∧
    verifyWalletConfig demoSession { demoWalletConfig with address := [] }
      = .error "Unknown address type: byte length is not equal to 36" :=
  ⟨(verifyWalletConfigFailsClosed demoSession
      { demoWalletConfig with walletType := utf8 "unknown" }).1 demoFriendly
      (by decide) (by decide),
    (verifyWalletConfigFailsClosed demoSession
      { demoWalletConfig with walletConfig := [] }).2.1 demoFriendly
      (by decide) (by decide),
    (verifyWalletConfigFailsClosed demoSession
      { demoWalletConfig with address := [] }).2.2
      "Unknown address type: byte length is not equal to 36" (by decide)⟩

/-- C6 counterexample. The claim says no malformed input data causes an exception; a
config whose address field is malformed makes `verifyWalletConfig` throw the
address-parse error instead of returning `false`. -/
theorem verifyWalletConfigThrowsOnBadAddress :
    verifyWalletConfig demoSession { demoWalletConfig with address := [] }
      = .error "Unknown address type: byte length is not equal to 36" ∧
    (∀ b : Bool,
      verifyWalletConfig demoSession { demoWalletConfig with address := [] } ≠ .ok b) := by
  refine ⟨by decide, ?_⟩
  intro b
  have h : verifyWalletConfig demoSession { demoWalletConfig with address := [] }
      = .error "Unknown address type: byte length is not equal to 36" := by decide
  rw [h]
  intro habs
  injection habs

/-! ## Claim C7 -/

/-- A well-formed ready relay record for the demo session (it passes integrity). -/
def demoReadyRecord : SessionState :=
  .ready demoName demoUrl demoWalletConfig false 0 0 false

/-- C7. When the session derived from the request seed is not currently `ready` (it
normalizes to `revoked` or `initing`), or is ready but its bound `appPublicKey` differs
from the request's, `requestTransaction` and `requestSign` return the ordinary value
`invalid_session` — not an exception — and post no `command_new` job submission (the
Boolean submission flag of the model is `false`). -/
theorem invalidSessionNoSubmission (net : Bool) (fromBoc : Bytes → Option Cell)
    (sessResp : SessionState) (jobResps : Nat → JobState) (fuel now : Nat) :
    (∀ request : TonhubTransactionRequest,
      (getSessionState net (idFromSeed request.seed) sessResp).1 = .ok .revoked →
      requestTransaction net fromBoc sessResp jobResps fuel now request
        = .ok (.invalid_session, false)) ∧
    (∀ request : TonhubTransactionRequest, ∀ n u c up,
      (getSessionState net (idFromSeed request.seed) sessResp).1 = .ok (.initing n u c up) →
      requestTransaction net fromBoc sessResp jobResps fuel now request
        = .ok (.invalid_session, false)) ∧
    (∀ request : TonhubTransactionRequest, ∀ n u c up wallet,
      (getSessionState net (idFromSeed request.seed) sessResp).1
        = .ok (.ready n u c up wallet) →
      wallet.appPublicKey ≠ request.appPublicKey →
      requestTransaction net fromBoc sessResp jobResps fuel now request
        = .ok (.invalid_session, false)) ∧
    (∀ request : TonhubSignRequest,
      (getSessionState net (idFromSeed request.seed) sessResp).1 = .ok .revoked →
      requestSign net fromBoc sessResp jobResps fuel now request
        = .ok (.invalid_session, false)) ∧
    (∀ request : TonhubSignRequest, ∀ n u c up,
      (getSessionState net (idFromSeed request.seed) sessResp).1 = .ok (.initing n u c up) →
      requestSign net fromBoc sessResp jobResps fuel now request
        = .ok (.invalid_session, false)) ∧
    (∀ request : TonhubSignRequest, ∀ n u c up wallet,
      (getSessionState net (idFromSeed request.seed) sessResp).1
        = .ok (.ready n u c up wallet) →
      wallet.appPublicKey ≠ request.appPublicKey →
      requestSign net fromBoc sessResp jobResps fuel now request
        = .ok (.invalid_session, false)) := by
  refine ⟨?_, ?_, ?_, ?_, ?_, ?_⟩
  · intro request hsess
    unfold requestTransaction
    simp [hsess, backoffRun, Except.instMonad, Except.bind, pure, Except.pure]
  · intro request n u c up hsess
    unfold requestTransaction
    simp [hsess, backoffRun, Except.instMonad, Except.bind, pure, Except.pure]
  · intro request n u c up wallet hsess hne
    unfold requestTransaction
    simp [hsess, backoffRun, Except.instMonad, Except.bind, hne, pure, Except.pure]
  · intro request hsess
    unfold requestSign
    simp [hsess, backoffRun, Except.instMonad, Except.bind, pure, Except.pure]
  · intro request n u c up hsess
    unfold requestSign
    simp [hsess, backoffRun, Except.instMonad, Except.bind, pure, Except.pure]
  · intro request n u c up wallet hsess hne
    unfold requestSign
    simp [hsess, backoffRun, Except.instMonad, Except.bind, hne, pure, Except.pure]

/-- C7 witness: concrete short-circuits — a `not_found` record (normalizing to
`revoked`) for both pipelines, and a ready record whose bound key differs from the
request's app public key. -/
theorem invalidSessionNoSubmission_witness :
    requestTransaction false (fun _ => none) .not_found (fun _ => .empty 0) 0 0
      ⟨demoSeed, [1], demoAddressBytes, 0, 0, none, none, none⟩
      = .ok (.invalid_session, false) ∧
    requestSign false (fun _ => none) .not_found (fun _ => .empty 0) 0 0
      ⟨demoSeed, [1], 0, none, none⟩ = .ok (.invalid_session, false) ∧
    requestTransaction false (fun _ => none) demoReadyRecord (fun _ => .empty 0) 0 0
      ⟨demoSeed, [1], demoAddressBytes, 0, 0, none, none, none⟩
      = .ok (.invalid_session, false) ∧
    requestSign false (fun _ => none) demoReadyRecord (fun _ => .empty 0) 0 0
      ⟨demoSeed, [1], 0, none, none⟩ = .ok (.invalid_session, false) :=
  ⟨(invalidSessionNoSubmission false (fun _ => none) .not_found (fun _ => .empty 0) 0 0).1
      ⟨demoSeed, [1], demoAddressBytes, 0, 0, none, none, none⟩ (by decide),
    (invalidSessionNoSubmission false (fun _ => none) .not_found (fun _ => .empty 0) 0 0).2.2.2.1
      ⟨demoSeed, [1], 0, none, none⟩ (by decide),
    (invalidSessionNoSubmission false (fun _ => none) demoReadyRecord (fun _ => .empty 0) 0 0).2.2.1
      ⟨demoSeed, [1], demoAddressBytes, 0, 0, none, none, none⟩ demoName demoUrl 0 0
      demoWalletConfig (by decide) (by decide),
    (invalidSessionNoSubmission false (fun _ => none) demoReadyRecord (fun _ => .empty 0) 0 0).2.2.2.2.2
      ⟨demoSeed, [1], 0, none, none⟩ demoName demoUrl 0 0 demoWalletConfig
      (by decide) (by decide)⟩

/-! ## Claim C8 -/

/-- C8 (amended). The comment cell `requestSign` embeds in the sign job and the text
cell `verifySignatureResponse` rebuilds agree exactly when the request text is a
non-empty string; for an absent or empty text they differ — the signing path embeds the
tagged empty comment cell `comment('')` while the verification path uses the empty
cell. -/
theorem commentCellConsistency :
    (∀ s : Bytes, s ≠ [] → signJobCommentCell (some s) = verifyResponseTextCell (some s)) ∧
    signJobCommentCell none ≠ verifyResponseTextCell none ∧
    signJobCommentCell (some []) ≠ verifyResponseTextCell (some []) := by
  refine ⟨?_, by decide, by decide⟩
  intro s h
  simp [signJobCommentCell, verifyResponseTextCell, List.isEmpty_iff, h]

/-- C8 witness: agreement of the two comment encodings at the concrete one-byte text. -/
theorem commentCellConsistency_witness :
    ([72] : Bytes) ≠ [] ∧
    signJobCommentCell (some [72]) = verifyResponseTextCell (some [72]) :=
  ⟨by decide, commentCellConsistency.1 [72] (by decide)⟩

/-- C8 counterexample. For an absent text (and likewise the empty string) the two paths
produce different cells: `requestSign` signs over `comment('')` — a cell of 32 zero
bits — while `verifySignatureResponse` reconstructs the 0-bit empty cell. -/
theorem commentCellMismatchOnEmptyText :
    signJobCommentCell none ≠ verifyResponseTextCell none ∧
    signJobCommentCell (some []) ≠ verifyResponseTextCell (some []) ∧
    signJobCommentCell none = comment [] ∧
    verifyResponseTextCell none = Cell.EMPTY ∧
    comment [] = Cell.mk (natToBits 0 32) .nil ∧
    Cell.EMPTY = Cell.mk [] .nil := by
  refine ⟨by decide, by decide, rfl, rfl, by decide, rfl⟩

/-! ## Claim C9 -/

/-- When every long poll returns an `initing` record on the client's own network, the
`awaitSessionReady` loop always times out: it returns `expired` at a clock value no
later than `expires` plus one full poll iteration (one round trip plus the fixed
1000 ms inter-poll sleep). -/
theorem awaitLoopAllInitingExpires (net : Bool) (sid : Bytes) (recs : Nat → SessionState)
    (rts : Nat → Nat) (names urls : Nat → Bytes) (cs us : Nat → Int) (revs : Nat → Bool)
    (R expires : Nat)
    (hrec : ∀ j, recs j = .initing (names j) (urls j) net (cs j) (us j) (revs j))
    (hR : ∀ j, rts j ≤ R) (k now : Nat) (hnow : now ≤ expires + R + 1000) :
    ∃ t, awaitSessionReadyLoop net sid recs rts expires k now = .ok (.expired, t) ∧
      t ≤ expires + R + 1000 := by
  by_cases h : now < expires
  · have hwait : (waitForSessionState net sid (recs k)).1
        = .ok (.initing (names k) (urls k) (cs k) (us k)) := by
      rw [hrec k]
      simp [waitForSessionState, ensureSessionStateCorrect, backoffRun]
    obtain ⟨t, hrest, hb⟩ := awaitLoopAllInitingExpires net sid recs rts names urls cs us
      revs R expires hrec hR (k+1) (now + rts k + 1000) (by have := hR k; omega)
    refine ⟨t, ?_, hb⟩
    unfold awaitSessionReadyLoop
    rw [dif_pos h, hwait]
    exact hrest
  · refine ⟨now, ?_, hnow⟩
    unfold awaitSessionReadyLoop
    rw [dif_neg h]
termination_by expires - now
decreasing_by have := hR k; omega

/-- C9. If every poll of the session returns `initing` (the record never leaves the
initing state on the client's network), `awaitSessionReady sid T` terminates and
returns `expired`, at a wall-clock time at most `start + T` plus one poll iteration
(one round trip, bounded by `R`, plus the fixed 1000 ms inter-poll sleep): it never
loops forever. -/
theorem awaitSessionReadyExpires (net : Bool) (sid : Bytes) (recs : Nat → SessionState)
    (rts : Nat → Nat) (names urls : Nat → Bytes) (cs us : Nat → Int) (revs : Nat → Bool)
    (R start timeout : Nat)
    (hrec : ∀ j, recs j = .initing (names j) (urls j) net (cs j) (us j) (revs j))
    (hR : ∀ j, rts j ≤ R) :
    ∃ t, awaitSessionReady net sid recs rts start timeout = .ok (.expired, t) ∧
      t ≤ start + timeout + R + 1000 := by
  obtain ⟨t, hloop, hb⟩ := awaitLoopAllInitingExpires net sid recs rts names urls cs us
    revs R (start + timeout) hrec hR 0 start (by omega)
  exact ⟨t, by simp [awaitSessionReady, hloop, backoffRun], by omega⟩

/-- C9 witness: a concrete always-initing oracle with instantaneous polls and a 5-second
budget — the await returns `expired` within the bound. -/
theorem awaitSessionReadyExpires_witness :
    ∃ t, awaitSessionReady false demoSession
        (fun _ => .initing demoName demoUrl false 0 0 false) (fun _ => 0) 0 5000
      = .ok (.expired, t) ∧ t ≤ 0 + 5000 + 0 + 1000 :=
  awaitSessionReadyExpires false demoSession
    (fun _ => .initing demoName demoUrl false 0 0 false) (fun _ => 0)
    (fun _ => demoName) (fun _ => demoUrl) (fun _ => 0) (fun _ => 0) (fun _ => false)
    0 0 5000 (fun _ => rfl) (fun _ => Nat.le_refl 0)

/-! ## Claim C5 -/

/-- C5. When `requestSign`'s session check passes and the job polling ends `completed`,
the response is `success` exactly when the 64-byte signature extracted from the result
blob verifies — via `verifySignatureResponse` — against the sign-response payload
reconstructed from the session's wallet config and the original request's `text` and
`payload`; when that verification returns `false` the response is `rejected`. -/
theorem requestSignVerifiesCompletedResult (net : Bool) (fromBoc : Bytes → Option Cell)
    (sessResp : SessionState) (jobResps : Nat → JobState) (fuel now : Nat)
    (request : TonhubSignRequest) (name url : Bytes) (created updated : Int)
    (wallet : TonhubWalletConfig) (data cellRes : Cell) (result resSignature : Bytes)
    (v : Bool)
    (hsess : (getSessionState net (idFromSeed request.seed) sessResp).1
      = .ok (.ready name url created updated wallet))
    (hpk : wallet.appPublicKey = request.appPublicKey)
    (hdata : (match request.payload with
      | some p => fromBoc p
      | none => some Cell.EMPTY) = some data)
    (hjob : _awaitJobState (encodeBoc (packageCell
        (safeSign (signJobCell wallet.appPublicKey ((now + request.timeout) / 1000)
          (signJobCommentCell request.text) data) (keyPairFromSeed request.seed).secretKey)
        (keyPairFromSeed request.seed).publicKey
        (signJobCell wallet.appPublicKey ((now + request.timeout) / 1000)
          (signJobCommentCell request.text) data))) jobResps 0 fuel
      = .ok (.completed result))
    (hcell : fromBoc result = some cellRes)
    (hload : loadBuffer64 cellRes = .ok resSignature)
    (hver : verifySignatureResponse fromBoc
        { signature := resSignature, text := request.text, payload := request.payload,
          config := wallet } = .ok v) :
    requestSign net fromBoc sessResp jobResps fuel now request
      = .ok ((if v then .success resSignature else .rejected), true) := by
  unfold requestSign
  cases hp : request.payload with
  | none =>
    rw [hp] at hdata hver
    simp only [Option.some.injEq] at hdata
    subst hdata
    rw [hpk] at hjob
    cases v <;>
      simp [hsess, hp, hjob, hcell, hload, hver, backoffRun, hpk,
        Except.instMonad, Except.bind, pure, Except.pure]
  | some p =>
    rw [hp] at hdata hver
    simp only [] at hdata
    rw [hpk] at hjob
    cases v <;>
      simp [hsess, hp, hdata, hjob, hcell, hload, hver, backoffRun, hpk,
        Except.instMonad, Except.bind, pure, Except.pure]

/-- The sign job the demo request produces (timeout 1000 ms at clock 0, no text, no
payload). -/
def demoSignJob : Cell :=
  signJobCell demoSession ((0 + 1000) / 1000) (signJobCommentCell none) Cell.EMPTY

/-- The serialized signed envelope of the demo sign job. -/
def demoSignBoc : Bytes :=
  encodeBoc (packageCell (safeSign demoSignJob (keyPairFromSeed demoSeed).secretKey)
    (keyPairFromSeed demoSeed).publicKey demoSignJob)

/-- A result cell carrying 64 zero signature bytes. -/
def demoResultCell : Cell := .mk (bytesToBits (List.replicate 64 0)) .nil

/-- A BOC decoder oracle returning the demo result cell. -/
def demoFromBoc : Bytes → Option Cell := fun _ => some demoResultCell

/-- A job oracle that reports the demo job completed with result blob `[9]`. -/
def demoJobResps : Nat → JobState := fun _ => .completed demoSignBoc 0 0 [9] 0

def demoSignRequest : TonhubSignRequest :=
  { seed := demoSeed, appPublicKey := demoSession, timeout := 1000, text := none,
    payload := none }

/-- A poll whose first record is this client's own job, completed, is terminal at once. -/
theorem awaitJobState_first_completed (boc : Bytes) (resps : Nat → JobState)
    (r : Bytes) (c u n : Int) (fuel : Nat)
    (h : resps 0 = .completed boc c u r n) :
    _awaitJobState boc resps 0 (fuel + 1) = .ok (.completed r) := by
  unfold _awaitJobState
  rw [h]
  unfold _getJobState
  simp

/-- C5 witness: the concrete completed run whose extracted 64-zero-byte signature does
not verify, so `requestSign` answers `rejected`. -/
theorem requestSignVerifiesCompletedResult_witness :
    requestSign false demoFromBoc demoReadyRecord demoJobResps 1 0 demoSignRequest
      = .ok ((if false then TonhubSignResponse.success (List.replicate 64 0)
          else TonhubSignResponse.rejected), true) :=
  requestSignVerifiesCompletedResult false demoFromBoc demoReadyRecord demoJobResps 1 0
    demoSignRequest demoName demoUrl 0 0 demoWalletConfig Cell.EMPTY demoResultCell [9]
    (List.replicate 64 0) false (by decide) (by decide) (by decide)
    (awaitJobState_first_completed _ demoJobResps [9] 0 0 0 0 rfl) rfl
    (by decide) (by decide)

end TonX
